import Mathlib

/-!
Shallow embedding of `src/index.ts` of react-dynamic-classnames.

The repository's runtime logic is the single factory `createComponent`:
it resolves a base class, dynamic classes and dynamic CSS from the
`options` / `css` parameters, joins class sources with `clsx`, cleans the
resulting string, merges styles, strips `$`-prefixed custom props, and
renders the element with the computed `className`, `style` and filtered
props.  We embed JavaScript values as the inductive `JSVal`, props bags as
association lists, and each helper of the source file as a Lean function.
Accessing a property of `null` (which JavaScript's `typeof` classifies as
`'object'`) throws a `TypeError`; fallible steps therefore return `Except`.
-/

namespace Rdc

/-- JavaScript runtime values, as far as the library manipulates them:
`undefined`, `null`, booleans, numbers (modelled as integers), strings,
arrays and plain objects (ordered key/value lists, keys unique in any
real JS object). -/
inductive JSVal where
  | undef : JSVal
  | nullv : JSVal
  | boolv : Bool → JSVal
  | num : Int → JSVal
  | str : String → JSVal
  | arr : List JSVal → JSVal
  | obj : List (String × JSVal) → JSVal
deriving Inhabited

/-- A props bag: an ordered mapping from string keys to values
(JS object, keys unique). -/
abbrev Props := List (String × JSVal)

/-- A style object (`CSSProperties`): an ordered mapping from CSS property
names to values. -/
abbrev Style := List (String × JSVal)

/-- JavaScript truthiness of a value. -/
def jsTruthy : JSVal → Bool
  | .undef => false
  | .nullv => false
  | .boolv b => b
  | .num n => n != 0
  | .str s => s != ""
  | .arr _ => true
  | .obj _ => true

mutual
/-- The class tokens the `clsx` collaborator collects from one argument:
truthy strings and stringified truthy numbers are kept, booleans /
`null` / `undefined` are dropped, arrays are processed recursively, and
for objects the keys whose values are truthy are kept. -/
def clsxVal : JSVal → List String
  | .undef => []
  | .nullv => []
  | .boolv _ => []
  | .num n => if n = 0 then [] else [toString n]
  | .str s => if s = "" then [] else [s]
  | .arr l => clsxValList l
  | .obj fields => (fields.filter (fun kv => jsTruthy kv.2)).map (fun kv => kv.1)

/-- `clsx` on a list of arguments/array elements, in order. -/
def clsxValList : List JSVal → List String
  | [] => []
  | v :: vs => clsxVal v ++ clsxValList vs
end

/-- The `clsx` collaborator: joins all collected tokens with single
spaces (classic classnames contract). -/
def clsx (args : List JSVal) : String :=
  String.intercalate " " (clsxValList args)

/-- One step of collapsing whitespace runs: `prevWs` records whether the
previously scanned character was whitespace, so that each maximal run of
whitespace characters is replaced by a single space — the effect of
`className.replace(/\s+/g, ' ')`.  JS `\s` is modelled by
`Char.isWhitespace`. -/
def collapseWsAux : Bool → List Char → List Char
  | _, [] => []
  | prevWs, c :: cs =>
    if c.isWhitespace then
      if prevWs then collapseWsAux true cs
      else ' ' :: collapseWsAux true cs
    else c :: collapseWsAux false cs

/-- `s.replace(/\s+/g, ' ')`: every maximal whitespace run becomes one
space. -/
def jsCollapseWs (s : String) : String :=
  ⟨collapseWsAux false s.data⟩

/-- `s.trim()`: drop leading and trailing whitespace. -/
def jsTrim (s : String) : String :=
  ⟨((s.data.dropWhile Char.isWhitespace).reverse.dropWhile Char.isWhitespace).reverse⟩

/-- `cleanClassName` from `src/index.ts`:
`className.replace(/\s+/g, ' ').trim()`. -/
def cleanClassName (className : String) : String :=
  jsTrim (jsCollapseWs className)

/-- `key.startsWith('$')` on a string key. -/
def startsWithDollar (s : String) : Bool :=
  match s.data with
  | [] => false
  | c :: _ => c = '$'

/-- `omitCustomProps` from `src/index.ts`: copies every entry of `props`
whose key is not listed in `customProps` (the `for (const key in props)`
loop preserves insertion order). -/
def omitCustomProps (props : Props) (customProps : List String) : Props :=
  props.filter (fun kv => !(customProps.contains kv.1))

/-- The `css` field of a structured options object, or the second
positional `css` parameter: absent, a static style object, or a function
of the props. -/
inductive CssSource where
  | undef : CssSource
  | static : Style → CssSource
  | fn : (Props → Style) → CssSource

/-- The structured `ComponentOptions` object: optional `base` string,
optional `classes` function of props (returning an array of class
strings, fed to `clsx`), optional `css`. -/
structure ComponentOptionsV where
  base : Option String
  classes : Option (Props → JSVal)
  css : CssSource

/-- The runtime shapes the first `options` parameter can take:
omitted / `undefined`, `null`, a string, a number, a boolean, a function
of props, or a structured options object. -/
inductive OptionsArg where
  | undef : OptionsArg
  | nullv : OptionsArg
  | str : String → OptionsArg
  | num : Int → OptionsArg
  | boolv : Bool → OptionsArg
  | fn : (Props → JSVal) → OptionsArg
  | obj : ComponentOptionsV → OptionsArg

/-- `baseClass` resolution:
`typeof options === 'string'` → `options` itself;
`typeof options === 'object'` → `options.base` — note that
`typeof null === 'object'` as well, and `null.base` throws a
`TypeError` (the source writes `options.base`, not `options?.base`);
otherwise `undefined`. -/
def baseClass : OptionsArg → Except Unit (Option String)
  | .str s => .ok (some s)
  | .obj o => .ok o.base
  | .nullv => .error ()
  | .undef => .ok none
  | .num _ => .ok none
  | .boolv _ => .ok none
  | .fn _ => .ok none

/-- `dynamicClasses` resolution:
`typeof options === 'object'` → `options?.classes` (optional chaining,
so `null` yields `undefined`); `typeof options === 'function'` →
`options` itself; otherwise `undefined`. -/
def dynamicClasses : OptionsArg → Option (Props → JSVal)
  | .obj o => o.classes
  | .nullv => none
  | .fn f => some f
  | _ => none

/-- `dynamicCss` resolution:
`typeof options === 'object'` → `options?.css` (so `null` yields
`undefined`, ignoring the `css` parameter); otherwise the second
positional `css` parameter. -/
def dynamicCss : OptionsArg → CssSource → CssSource
  | .obj o, _ => o.css
  | .nullv, _ => .undef
  | _, c => c

/-- `resolvedCss`:
`typeof dynamicCss === 'function' ? dynamicCss(props) : dynamicCss`.
`undefined` stays `undefined` (`none`). -/
def resolveCss : CssSource → Props → Option Style
  | .undef, _ => none
  | .static s, _ => some s
  | .fn f, p => some (f p)

/-- JavaScript property assignment `o[k] = v` on an object with ordered
keys: replace the value at the first matching key in place, else append
the new key at the end. -/
def setKey : List (String × JSVal) → String → JSVal → List (String × JSVal)
  | [], k, v => [(k, v)]
  | (k₀, v₀) :: rest, k, v =>
    if k₀ = k then (k₀, v) :: rest else (k₀, v₀) :: setKey rest k v

/-- Object spread `\x7b ...a, ...b \x7d`: start from `a` and assign each
entry of `b` in order, so `b`'s values win on key collision. -/
def jsSpread (a b : List (String × JSVal)) : List (String × JSVal) :=
  b.foldl (fun acc kv => setKey acc kv.1 kv.2) a

/-- The enumerable own properties produced by spreading a value: objects
contribute their entries, arrays and strings their indexed elements, and
`null`/`undefined`/booleans/numbers contribute nothing. -/
def enumerableOwn : JSVal → List (String × JSVal)
  | .obj fields => fields
  | .arr l => l.enum.map (fun iv => (toString iv.1, iv.2))
  | .str s => s.data.enum.map (fun ic => (toString ic.1, .str (String.singleton ic.2)))
  | _ => []

/-- `mergedStyles = \x7b ...resolvedCss, ...style \x7d`: the incoming
`style` prop is spread over the computed style, so incoming keys win. -/
def mergedStyles (resolved : Option Style) (styleProp : Option JSVal) : Style :=
  jsSpread (resolved.getD []) (match styleProp with | some v => enumerableOwn v | none => [])

/-- The destructuring `const \x7b className, style, ...restProps \x7d = props`:
everything except the `className` and `style` keys. -/
def restPropsOf (props : Props) : Props :=
  props.filter (fun kv => kv.1 != "className" && kv.1 != "style")

/-- `customProps`: the keys of the full props bag that start with `'$'`
(every key of a props bag is a string). -/
def customPropsOf (props : Props) : List String :=
  (props.map (fun kv => kv.1)).filter (fun k => startsWithDollar k)

/-- `domProps`: the rest props with the custom (`$`-prefixed) keys
omitted. -/
def domPropsOf (props : Props) : Props :=
  omitCustomProps (restPropsOf props) (customPropsOf props)

/-- Everything the rendered element receives in one render: the cleaned
class string, the merged style object, the filtered `domProps`, and the
full attribute bag `\x7b ...domProps, className, style \x7d` passed to
`createElement`. -/
structure RenderResult where
  className : String
  style : Style
  domProps : Props
  elementProps : Props
deriving Inhabited

/-- The class-name half of the render: `cleanClassName(clsx(baseClass,
dynamicClasses ? dynamicClasses(props) : [], className))`.  `baseClass`
is `string | undefined`, the dynamic-class source is invoked with the
full props bag, and the incoming `className` prop is passed as-is. -/
def finalClassName (options : OptionsArg) (base : Option String) (props : Props) : String :=
  cleanClassName (clsx
    [(match base with | some s => .str s | none => .undef),
     (match dynamicClasses options with | some f => f props | none => .arr []),
     (match props.lookup "className" with | some v => v | none => .undef)])

/-- The body of the `forwardRef` render callback once `baseClass` has
been resolved to `base`: compute the cleaned class string, the merged
style, the filtered `domProps` and the attribute bag handed to
`createElement` (the `useMemo` wrappers are pure caching and are
dropped). -/
def renderWith (options : OptionsArg) (css : CssSource) (props : Props)
    (base : Option String) : RenderResult :=
  let classes := finalClassName options base props
  let merged := mergedStyles (resolveCss (dynamicCss options css) props) (props.lookup "style")
  let dom := domPropsOf props
  ⟨classes, merged, dom,
   jsSpread dom [("className", .str classes), ("style", .obj merged)]⟩

/-- One render of the component returned by
`createComponent(tag, options, css)` on a props bag, exactly following
the body of the `forwardRef` callback in `src/index.ts`.  The only
fallible step is `baseClass` (it throws on `options = null`); every
other step is total, so the render is the pure `renderWith` mapped over
the resolved base class. -/
def renderResolve (options : OptionsArg) (css : CssSource) (props : Props) :
    Except Unit RenderResult :=
  (baseClass options).map (renderWith options css props)

/-- The `options` shapes that are none of string / function / object:
omitted (`undefined`), a number, or a boolean.  (`null` is *not* among
them: JavaScript's `typeof null` is `'object'`.) -/
def isNonConfigPrim : OptionsArg → Bool
  | .undef => true
  | .num _ => true
  | .boolv _ => true
  | _ => false

/-! ### Whitespace normalization of the final class string -/

/-- Two adjacent characters are acceptable when they are not both
whitespace. -/
def wsAdjOk (a b : Char) : Prop :=
  ¬(a.isWhitespace = true ∧ b.isWhitespace = true)

/-- A whitespace-normalized string: no two adjacent whitespace
characters, and neither the first nor the last character is
whitespace. -/
def wsNormalized (s : String) : Prop :=
  List.Chain' wsAdjOk s.data ∧
  s.data.head?.all (fun c => !c.isWhitespace) = true ∧
  s.data.getLast?.all (fun c => !c.isWhitespace) = true

theorem wsAdjOk_symm {a b : Char} (h : wsAdjOk a b) : wsAdjOk b a :=
  fun hc => h ⟨hc.2, hc.1⟩

theorem collapseWsAux_true_head (l : List Char) :
    ((collapseWsAux true l).head?).all (fun c => !c.isWhitespace) = true := by
  induction l with
  | nil => rfl
  | cons c cs ih =>
    cases h : c.isWhitespace with
    | true => simpa [collapseWsAux, h] using ih
    | false => simp [collapseWsAux, h]

theorem chain'_collapseWsAux (l : List Char) (b : Bool) :
    List.Chain' wsAdjOk (collapseWsAux b l) := by
  induction l generalizing b with
  | nil => simp [collapseWsAux]
  | cons c cs ih =>
    cases h : c.isWhitespace with
    | false =>
      simp only [collapseWsAux, h, Bool.false_eq_true, if_false]
      refine List.chain'_cons'.mpr ⟨?_, ih false⟩
      intro y _
      exact fun hc => by simp [h] at hc
    | true =>
      cases b with
      | true =>
        simpa [collapseWsAux, h] using ih true
      | false =>
        simp only [collapseWsAux, h, if_true]
        refine List.chain'_cons'.mpr ⟨?_, ih true⟩
        intro y hy
        have hhead := collapseWsAux_true_head cs
        rw [Option.mem_def] at hy
        rw [hy, Option.all_some] at hhead
        intro hc
        rw [hc.2] at hhead
        simp at hhead

theorem head?_dropWhile_all (p : Char → Bool) (l : List Char) :
    ((l.dropWhile p).head?).all (fun a => !p a) = true := by
  induction l with
  | nil => rfl
  | cons c cs ih =>
    cases h : p c with
    | true => simpa [List.dropWhile_cons, h] using ih
    | false => simp [List.dropWhile_cons, h]

theorem getLast?_dropWhile_ne_nil (p : Char → Bool) (l : List Char)
    (h : l.dropWhile p ≠ []) : (l.dropWhile p).getLast? = l.getLast? := by
  induction l with
  | nil => simp at h
  | cons c cs ih =>
    cases hp : p c with
    | false => simp [List.dropWhile_cons, hp]
    | true =>
      have h' : cs.dropWhile p ≠ [] := by
        simpa [List.dropWhile_cons, hp] using h
      have hcs : cs ≠ [] := by
        intro e
        rw [e] at h'
        simp at h'
      rw [List.dropWhile_cons, if_pos hp, ih h']
      obtain ⟨d, ds, rfl⟩ := List.exists_cons_of_ne_nil hcs
      simp

/-- `cleanClassName` always yields a whitespace-normalized string: runs
of whitespace are collapsed to single spaces and the ends are
trimmed. -/
theorem cleanClassName_wsNormalized (s : String) : wsNormalized (cleanClassName s) := by
  have hdata : (cleanClassName s).data =
      ((((collapseWsAux false s.data).dropWhile Char.isWhitespace).reverse.dropWhile
        Char.isWhitespace)).reverse := by
    simp [cleanClassName, jsTrim, jsCollapseWs]
  have h0 : List.Chain' wsAdjOk (collapseWsAux false s.data) := chain'_collapseWsAux _ _
  have h1 : List.Chain' wsAdjOk
      ((collapseWsAux false s.data).dropWhile Char.isWhitespace) :=
    h0.suffix (List.dropWhile_suffix _)
  have h2 : List.Chain' wsAdjOk
      ((collapseWsAux false s.data).dropWhile Char.isWhitespace).reverse :=
    List.chain'_reverse.mpr (h1.imp fun _ _ h => wsAdjOk_symm h)
  have h3 : List.Chain' wsAdjOk
      (((collapseWsAux false s.data).dropWhile Char.isWhitespace).reverse.dropWhile
        Char.isWhitespace) :=
    h2.suffix (List.dropWhile_suffix _)
  have h4 : List.Chain' wsAdjOk
      (((collapseWsAux false s.data).dropWhile Char.isWhitespace).reverse.dropWhile
        Char.isWhitespace).reverse :=
    List.chain'_reverse.mpr (h3.imp fun _ _ h => wsAdjOk_symm h)
  refine ⟨by rw [hdata]; exact h4, ?_, ?_⟩
  · rw [hdata, List.head?_reverse]
    by_cases hX :
        (((collapseWsAux false s.data).dropWhile Char.isWhitespace).reverse.dropWhile
          Char.isWhitespace) = []
    · rw [hX]
      rfl
    · rw [getLast?_dropWhile_ne_nil _ _ hX, List.getLast?_reverse]
      exact head?_dropWhile_all _ _
  · rw [hdata, List.getLast?_reverse]
    exact head?_dropWhile_all _ _

/-! ### Lookup lemmas for assignment and spread -/

theorem lookup_setKey_self (o : List (String × JSVal)) (k : String) (v : JSVal) :
    (setKey o k v).lookup k = some v := by
  induction o with
  | nil => simp [setKey]
  | cons kv rest ih =>
    obtain ⟨k₀, v₀⟩ := kv
    by_cases h : k₀ = k
    · subst h
      simp [setKey]
    · simp only [setKey, if_neg h, List.lookup_cons]
      have hne : (k == k₀) = false := by
        simp only [beq_eq_false_iff_ne]
        exact fun e => h e.symm
      simp [hne, ih]

theorem lookup_setKey_other (o : List (String × JSVal)) (k k' : String) (v : JSVal)
    (h : k' ≠ k) : (setKey o k v).lookup k' = o.lookup k' := by
  induction o with
  | nil =>
    simp only [setKey, List.lookup_cons, List.lookup_nil]
    have hne : (k' == k) = false := by simpa [beq_eq_false_iff_ne] using h
    simp [hne]
  | cons kv rest ih =>
    obtain ⟨k₀, v₀⟩ := kv
    by_cases h₀ : k₀ = k
    · subst h₀
      have hne : (k' == k₀) = false := by simpa [beq_eq_false_iff_ne] using h
      simp [setKey, List.lookup_cons, hne]
    · simp [setKey, if_neg h₀, List.lookup_cons, ih]

theorem lookup_jsSpread (b a : List (String × JSVal)) (k : String)
    (hb : (b.map Prod.fst).Nodup) :
    (jsSpread a b).lookup k = (b.lookup k).or (a.lookup k) := by
  induction b generalizing a with
  | nil => simp [jsSpread]
  | cons kv rest ih =>
    obtain ⟨k₀, v₀⟩ := kv
    simp only [List.map_cons, List.nodup_cons] at hb
    obtain ⟨hk₀, hrest⟩ := hb
    have hfold : jsSpread a ((k₀, v₀) :: rest) = jsSpread (setKey a k₀ v₀) rest := rfl
    rw [hfold, ih _ hrest]
    by_cases h : k = k₀
    · subst h
      have hnone : rest.lookup k = none := by
        rw [List.lookup_eq_none_iff]
        intro p hp
        simp only [bne_iff_ne]
        exact fun e => hk₀ (List.mem_map.mpr ⟨p, hp, e.symm⟩)
      rw [hnone, lookup_setKey_self]
      simp
    · have hne : (k == k₀) = false := by simpa [beq_eq_false_iff_ne] using h
      rw [lookup_setKey_other _ _ _ _ h]
      simp [List.lookup_cons, hne]

theorem setKey_all (p : String × JSVal → Bool) (l : List (String × JSVal))
    (k : String) (v : JSVal) (hl : l.all p = true) (hkv : p (k, v) = true) :
    (setKey l k v).all p = true := by
  induction l with
  | nil => simpa [setKey] using hkv
  | cons kv rest ih =>
    obtain ⟨k₀, v₀⟩ := kv
    simp only [List.all_cons, Bool.and_eq_true] at hl
    by_cases h : k₀ = k
    · subst h
      simp [setKey, hkv, hl.2]
    · simp [setKey, if_neg h, hl.1, ih hl.2]

/-! ### The filtered props -/

theorem domPropsOf_no_custom (props : Props) :
    (domPropsOf props).all (fun kv => !(startsWithDollar kv.1)) = true := by
  rw [List.all_eq_true]
  intro kv hkv
  rw [domPropsOf, omitCustomProps, List.mem_filter] at hkv
  obtain ⟨hmem, hpass⟩ := hkv
  cases hd : startsWithDollar kv.1 with
  | false => simp [hd]
  | true =>
    exfalso
    rw [restPropsOf, List.mem_filter] at hmem
    have hkey : kv.1 ∈ customPropsOf props := by
      rw [customPropsOf, List.mem_filter]
      exact ⟨List.mem_map.mpr ⟨kv, hmem.1, rfl⟩, hd⟩
    have : (customPropsOf props).contains kv.1 = true := by
      simpa [List.contains] using hkey
    rw [this] at hpass
    simp at hpass

theorem domPropsOf_no_reserved (props : Props) :
    (domPropsOf props).all (fun kv => kv.1 != "className" && kv.1 != "style") = true := by
  rw [List.all_eq_true]
  intro kv hkv
  rw [domPropsOf, omitCustomProps, List.mem_filter] at hkv
  have hmem := hkv.1
  rw [restPropsOf, List.mem_filter] at hmem
  exact hmem.2

/-! ### Destructuring a successful render -/

theorem renderResolve_eq_ok {o : OptionsArg} {c : CssSource} {p : Props}
    {out : RenderResult} (h : renderResolve o c p = .ok out) :
    ∃ base, baseClass o = .ok base ∧ out = renderWith o c p base := by
  cases hb : baseClass o with
  | error e =>
    rw [renderResolve, hb] at h
    simp [Except.map] at h
  | ok base =>
    rw [renderResolve, hb] at h
    simp only [Except.map, Except.ok.injEq] at h
    exact ⟨base, rfl, h.symm⟩

/-! ### Claim theorems -/

/-- C1: for every props bag passed at render time, no key beginning with
the reserved marker `'$'` appears among the props forwarded to the
rendered underlying element (the full attribute bag handed to
`createElement`); internal props are consumed for logic only. -/
theorem c1_no_internal_props_forwarded (o : OptionsArg) (c : CssSource) (p : Props)
    (out : RenderResult) (h : renderResolve o c p = .ok out) :
    out.elementProps.all (fun kv => !(startsWithDollar kv.1)) = true := by
  obtain ⟨base, _, rfl⟩ := renderResolve_eq_ok h
  refine setKey_all _ _ _ _ (setKey_all _ _ _ _ (domPropsOf_no_custom p) rfl) rfl

theorem c1_witness :
    (([("id", JSVal.str "x"), ("className", JSVal.str ""), ("style", JSVal.obj [])] :
      Props).all (fun kv => !(startsWithDollar kv.1)) = true) :=
  c1_no_internal_props_forwarded .undef .undef [("id", .str "x"), ("$hot", .boolv true)]
    ⟨"", [], [("id", .str "x")],
     [("id", .str "x"), ("className", .str ""), ("style", .obj [])]⟩ rfl

/-- C2: for every configuration and props, the final class name produced
by a successful render contains no run of two or more whitespace
characters and no leading or trailing whitespace. -/
theorem c2_final_class_name_ws_normalized (o : OptionsArg) (c : CssSource) (p : Props)
    (out : RenderResult) (h : renderResolve o c p = .ok out) :
    wsNormalized out.className := by
  obtain ⟨base, _, rfl⟩ := renderResolve_eq_ok h
  exact cleanClassName_wsNormalized _

theorem c2_witness : wsNormalized "foo bar" :=
  c2_final_class_name_ws_normalized (.str "foo") .undef [("className", .str "bar")]
    ⟨"foo bar", [], [],
     [("className", .str "foo bar"), ("style", .obj [])]⟩ rfl

/-- C3: the final class name is the in-order concatenation of the base
class, the dynamic class tokens and the incoming `className` prop,
joined with single spaces, whitespace-collapsed and trimmed
(`finalClassName` is exactly `cleanClassName (clsx [base, dynamic,
className])` with falsy entries contributing nothing); in particular
`options = "foo"` with incoming `className = "bar"` renders class
`"foo bar"`, and `options = \x7b base: "a", classes: p => [p.active ?
"active" : ""] \x7d` with props `\x7b active: false \x7d` renders
class `"a"`. -/
theorem c3_class_concatenation :
    (∀ (o : OptionsArg) (c : CssSource) (p : Props),
      (renderResolve o c p).map RenderResult.className =
        (baseClass o).map (fun base => finalClassName o base p)) ∧
    (renderResolve (.str "foo") .undef [("className", .str "bar")]).map
        RenderResult.className = .ok "foo bar" ∧
    (renderResolve
        (.obj ⟨some "a",
               some (fun p => .arr
                 [if jsTruthy ((p.lookup "active").getD .undef) then .str "active"
                  else .str ""]),
               .undef⟩)
        .undef [("active", .boolv false)]).map RenderResult.className = .ok "a" := by
  refine ⟨fun o c p => ?_, rfl, rfl⟩
  cases hb : baseClass o <;> simp [renderResolve, hb, Except.map, renderWith]

/-- C4: the final style object is the resolved CSS merged with the
incoming `style` prop, and on key collision the incoming style's value
wins; in particular `css: \x7b color: "red" \x7d` with incoming
`style = \x7b color: "blue" \x7d` yields `\x7b color: "blue" \x7d`. -/
theorem c4_incoming_style_wins :
    (∀ (resolved st : Style) (k : String), (st.map Prod.fst).Nodup →
      (mergedStyles (some resolved) (some (.obj st))).lookup k =
        (st.lookup k).or (resolved.lookup k)) ∧
    (renderResolve (.obj ⟨none, none, .static [("color", .str "red")]⟩) .undef
        [("style", .obj [("color", .str "blue")])]).map RenderResult.style =
      .ok [("color", .str "blue")] := by
  refine ⟨fun resolved st k h => ?_, rfl⟩
  exact lookup_jsSpread st resolved k h

theorem c4_witness :
    (([("color", JSVal.str "blue")].map Prod.fst).Nodup) ∧
    (mergedStyles (some [("color", JSVal.str "red")])
        (some (.obj [("color", JSVal.str "blue")]))).lookup "color" =
      ([("color", JSVal.str "blue")].lookup "color").or
        ([("color", JSVal.str "red")].lookup "color") :=
  ⟨by decide,
   c4_incoming_style_wins.1 [("color", JSVal.str "red")] [("color", JSVal.str "blue")]
     "color" (by decide)⟩

/-- C5: when `options` is a structured object, the resolved CSS comes
from its `css` field and the second positional `css` parameter has no
effect whatsoever on the render result. -/
theorem c5_css_param_ignored_for_structured_options (o : ComponentOptionsV)
    (c₁ c₂ : CssSource) (p : Props) :
    renderResolve (.obj o) c₁ p = renderResolve (.obj o) c₂ p := rfl

/-- C6 counterexample: with `options = null` rendering *does* fail —
JavaScript's `typeof null` is `'object'`, so `baseClass` evaluates
`null.base` and throws a `TypeError` — contradicting the claim that
every non-string/function/object options value (e.g. `null`) silently
resolves to a no-op. -/
theorem c6_counterexample_null_options_throw :
    renderResolve .nullv .undef [] = .error () := rfl

/-- C6 (amended): for every `options` value of primitive non-config
shape — omitted/`undefined`, a number, or a boolean (but *not* `null`,
whose `typeof` is `'object'` and which makes the render throw) —
rendering does not fail, and resolution silently yields no base class,
no dynamic classes, and no CSS contribution from `options` (the `css`
parameter passes through unchanged). -/
theorem c6_unrecognized_primitive_options_resolve_silently (o : OptionsArg)
    (c : CssSource) (p : Props) (h : isNonConfigPrim o = true) :
    renderResolve o c p = .ok (renderWith o c p none) ∧
    baseClass o = .ok none ∧ dynamicClasses o = none ∧ dynamicCss o c = c := by
  cases o with
  | undef => exact ⟨rfl, rfl, rfl, rfl⟩
  | num n => exact ⟨rfl, rfl, rfl, rfl⟩
  | boolv b => exact ⟨rfl, rfl, rfl, rfl⟩
  | nullv => simp [isNonConfigPrim] at h
  | str s => simp [isNonConfigPrim] at h
  | fn f => simp [isNonConfigPrim] at h
  | obj oo => simp [isNonConfigPrim] at h

theorem c6_witness :
    renderResolve (.num 3) .undef [] = .ok (renderWith (.num 3) .undef [] none) ∧
    baseClass (.num 3) = .ok none ∧ dynamicClasses (.num 3) = none ∧
    dynamicCss (.num 3) .undef = .undef :=
  c6_unrecognized_primitive_options_resolve_silently (.num 3) .undef [] rfl

/-- C7: the render resolution is a pure, deterministic function of
`(options, css, props)`: renders with identical inputs compute identical
final class name, final style and forwarded props (the embedding is a
total function apart from the propagated `TypeError` on `null` options,
so there are no side effects to observe). -/
theorem c7_render_deterministic (o₁ o₂ : OptionsArg) (c₁ c₂ : CssSource)
    (p₁ p₂ : Props) (ho : o₁ = o₂) (hc : c₁ = c₂) (hp : p₁ = p₂) :
    renderResolve o₁ c₁ p₁ = renderResolve o₂ c₂ p₂ := by
  subst ho hc hp
  rfl

theorem c7_witness :
    renderResolve (.str "a") .undef [] = renderResolve (.str "a") .undef [] :=
  c7_render_deterministic (.str "a") (.str "a") .undef .undef [] [] rfl rfl rfl

/-- C8: with `options` omitted (both positional configuration parameters
absent) and no incoming `className`/`style` prop, the element receives
an empty class string and an empty style object, and every non-internal
incoming prop is forwarded with key and value unchanged (`domProps` is
exactly the props bag minus the `$`-prefixed keys). -/
theorem c8_omitted_options_frame (p : Props)
    (hcn : p.lookup "className" = none) (hst : p.lookup "style" = none) :
    (renderResolve .undef .undef p).map RenderResult.className = .ok "" ∧
    (renderResolve .undef .undef p).map RenderResult.style = .ok [] ∧
    (renderResolve .undef .undef p).map RenderResult.domProps =
      .ok (p.filter (fun kv => !(startsWithDollar kv.1))) := by
  have hrest : restPropsOf p = p := by
    rw [restPropsOf, List.filter_eq_self]
    intro kv hkv
    rw [List.lookup_eq_none_iff] at hcn hst
    have h1 := hcn kv hkv
    have h2 := hst kv hkv
    simp only [bne_iff_ne] at h1 h2
    simp [bne_iff_ne, Ne.symm h1, Ne.symm h2]
  have hdom : domPropsOf p = p.filter (fun kv => !(startsWithDollar kv.1)) := by
    rw [domPropsOf, hrest, omitCustomProps]
    apply List.filter_congr
    intro kv hkv
    cases hd : startsWithDollar kv.1 with
    | true =>
      have hin : (customPropsOf p).contains kv.1 = true := by
        have hkey : kv.1 ∈ customPropsOf p := by
          rw [customPropsOf, List.mem_filter]
          exact ⟨List.mem_map.mpr ⟨kv, hkv, rfl⟩, hd⟩
        simpa [List.contains] using hkey
      rw [hin]
    | false =>
      have hnot : kv.1 ∉ customPropsOf p := by
        intro hmem
        rw [customPropsOf, List.mem_filter, hd] at hmem
        exact absurd hmem.2 (by simp)
      have hout : (customPropsOf p).contains kv.1 = false := by
        simpa [List.contains] using hnot
      rw [hout]
  refine ⟨?_, ?_, ?_⟩
  · have hclass : finalClassName .undef none p = "" := by
      rw [finalClassName, hcn]
      rfl
    show Except.ok (renderWith .undef .undef p none).className = .ok ""
    rw [show (renderWith .undef .undef p none).className =
      finalClassName .undef none p from rfl, hclass]
  · show Except.ok (renderWith .undef .undef p none).style = .ok []
    rw [show (renderWith .undef .undef p none).style =
      mergedStyles (resolveCss .undef p) (p.lookup "style") from rfl, hst]
    rfl
  · show Except.ok (renderWith .undef .undef p none).domProps = _
    rw [show (renderWith .undef .undef p none).domProps = domPropsOf p from rfl, hdom]

theorem c8_witness :
    (([("id", JSVal.str "x"), ("$hot", JSVal.boolv true)] : Props).lookup
        "className" = none) ∧
    (([("id", JSVal.str "x"), ("$hot", JSVal.boolv true)] : Props).lookup
        "style" = none) ∧
    ((renderResolve .undef .undef
        [("id", JSVal.str "x"), ("$hot", JSVal.boolv true)]).map
      RenderResult.domProps = .ok [("id", JSVal.str "x")]) :=
  ⟨rfl, rfl,
   (c8_omitted_options_frame
     [("id", JSVal.str "x"), ("$hot", JSVal.boolv true)] rfl rfl).2.2⟩

/-- C9: when `options` is a function of props it becomes the sole class
source: the resolved base class is `undefined`, the function itself is
the dynamic-class source, and it is invoked with the full incoming props
bag, its result being fed (with the incoming `className`) into the
`clsx`-and-clean concatenation. -/
theorem c9_function_options_sole_source (f : Props → JSVal) (c : CssSource)
    (p : Props) :
    baseClass (.fn f) = .ok none ∧ dynamicClasses (.fn f) = some f ∧
    (renderResolve (.fn f) c p).map RenderResult.className =
      .ok (cleanClassName (clsx
        [f p, (match p.lookup "className" with | some v => v | none => .undef)])) :=
  ⟨rfl, rfl, rfl⟩

/-- C10: the rendered element always receives explicit `className` and
`style` entries equal to the computed final class name and merged style;
the incoming `className`/`style` props are destructured out of the rest
props and never forwarded verbatim (`domProps` contains neither key). -/
theorem c10_element_gets_computed_class_and_style (o : OptionsArg) (c : CssSource)
    (p : Props) (out : RenderResult) (h : renderResolve o c p = .ok out) :
    out.elementProps.lookup "className" = some (.str out.className) ∧
    out.elementProps.lookup "style" = some (.obj out.style) ∧
    out.domProps.all (fun kv => kv.1 != "className" && kv.1 != "style") = true := by
  obtain ⟨base, _, rfl⟩ := renderResolve_eq_ok h
  refine ⟨?_, ?_, domPropsOf_no_reserved p⟩
  · show (setKey (setKey (domPropsOf p) "className" _) "style" _).lookup
        "className" = _
    rw [lookup_setKey_other _ _ _ _ (by decide : "className" ≠ "style")]
    exact lookup_setKey_self _ _ _
  · exact lookup_setKey_self _ _ _

theorem c10_witness :
    (([("className", JSVal.str ""), ("style", JSVal.obj [])] : Props).lookup
        "className" = some (JSVal.str "")) ∧
    (([("className", JSVal.str ""), ("style", JSVal.obj [])] : Props).lookup
        "style" = some (JSVal.obj [])) ∧
    (([] : Props).all (fun kv => kv.1 != "className" && kv.1 != "style") = true) :=
  c10_element_gets_computed_class_and_style .undef .undef []
    ⟨"", [], [], [("className", .str ""), ("style", .obj [])]⟩ rfl

end Rdc
